import Mathlib

/-!
# Verification of the AutoClick input-automation engine (`AC.py`)

This file shallowly embeds the concurrency core of the AutoClick program:
the timed playback engine (`RecorderPlayer.start_playback` / `play_loop`),
the marker click-loop runner (`ClickRunner.start` / `worker`), the hotkey
capture session (`_begin_capture` / `_is_hotkey_in_use` / capture commit),
the marker page state (`toggle_start`, `_commit_editor`, `add_marker`,
`delete_selected`, `load_config_file`, `import_state`) and the
persistence-loading paths (`RecorderPlayer.load_from_file`).

Wall-clock durations and event timestamps are modelled as rationals (`ℚ`),
integer pixel coordinates as `Int`.  Background workers are modelled as
functions producing an explicit trace of observable steps (injected output
actions, timed suspensions, log lines, and reads of the cooperative
cancellation flag); the cancellation flag is modelled as a function from
the index of the read to the value read, assumed monotone (once set it
stays set), which is how a `threading.Event` behaves during a run.
Python `while` loops over a possibly infinite loop count are made total
with an explicit fuel parameter; every theorem quantifies over the fuel.
-/

namespace AutoClick

/-- Mouse buttons distinguished by the program. -/
inductive MBtn
  | left
  | right
deriving DecidableEq

/-- Output-injection actions issued to the OS (pynput controller calls). -/
inductive OutAction
  | move (x y : Int)
  | press (b : MBtn)
  | release (b : MBtn)
  | scroll (dx dy : Int)
  | keyDown (k : String)
  | keyUp (k : String)
  | click (b : MBtn)
deriving DecidableEq

/-- One observable step of a background worker: an injected output action,
a timed suspension, a log line, or an observation of the cooperative
cancellation flag (recording the value that was read). -/
inductive TraceItem
  | out (a : OutAction)
  | sleep (d : ℚ)
  | logMsg (s : String)
  | check (b : Bool)
deriving DecidableEq

/-- Substring test on char lists (used to embed Python's `"left" in s`). -/
def listContains (pat : List Char) : List Char → Bool
  | [] => pat.isEmpty
  | c :: rest => pat.isPrefixOf (c :: rest) || listContains pat rest

/-- Python's `pat in s` on strings. -/
def strContains (s pat : String) : Bool := listContains pat.data s.data

/-- `Event` dataclass of `AC.py` (recorded input event).  In Python the
optional fields default to `None`; they default here to `0` / `""`, which
is unobservable because playback only reads the fields that are present
for the event's kind. -/
structure Event where
  t : ℚ
  type : String
  x : Int := 0
  y : Int := 0
  dx : Int := 0
  dy : Int := 0
  button : String := ""
  key : String := ""
deriving DecidableEq

/-- The output actions the per-event branch of `play_loop` injects for one
event (`mouse_move` / `mouse_down` / `mouse_up` / `mouse_scroll` /
`key_down` / `key_up`; any other type injects nothing). -/
def applyEventActions (ev : Event) : List OutAction :=
  if ev.type = "mouse_move" then [OutAction.move ev.x ev.y]
  else if ev.type = "mouse_down" then
    [OutAction.press (if strContains ev.button "left" then MBtn.left else MBtn.right)]
  else if ev.type = "mouse_up" then
    [OutAction.release (if strContains ev.button "left" then MBtn.left else MBtn.right)]
  else if ev.type = "mouse_scroll" then [OutAction.move ev.x ev.y, OutAction.scroll ev.dx ev.dy]
  else if ev.type = "key_down" then [OutAction.keyDown ev.key]
  else if ev.type = "key_up" then [OutAction.keyUp ev.key]
  else []

/-- Result of an inner worker loop: next flag-read index, trace, and
whether the loop was left early because the flag was observed set. -/
structure WRes where
  k : ℕ
  tr : List TraceItem
  aborted : Bool
deriving DecidableEq

/-- Result of a whole worker run: next flag-read index and trace. -/
structure LRes where
  k : ℕ
  tr : List TraceItem
deriving DecidableEq

/-- The per-event `for` loop of `play_loop`: for each event, read the stop
flag (`self._stop_play_event.is_set()`; on `True` the function returns),
sleep `(ev.t - prev_t) / max(speed, 1e-9)`, inject the event's actions,
and continue with `prev_t = ev.t`. -/
def playEvents (f : ℕ → Bool) (speed : ℚ) : ℕ → ℚ → List Event → WRes
  | k, _, [] => ⟨k, [], false⟩
  | k, prev, ev :: rest =>
    if f k then ⟨k + 1, [TraceItem.check true], true⟩
    else
      let r := playEvents f speed (k + 1) ev.t rest
      ⟨r.k, TraceItem.check false ::
        TraceItem.sleep ((ev.t - prev) / max speed (1/1000000000)) ::
        (applyEventActions ev).map TraceItem.out ++ r.tr, r.aborted⟩

/-- `loop_index < total_loops` where `total_loops` is `loops`, or infinity
when `loops == -1`. -/
def loopCond (loops idx : Int) : Bool :=
  if loops = -1 then true else decide (idx < loops)

/-- Log line at the start of playback loop number `i`. -/
def playStartLog (i : Int) : String := "回放 - 第 " ++ toString i ++ " 轮开始"

/-- Log line at the end of playback loop number `i`. -/
def playEndLog (i : Int) : String := "回放 - 第 " ++ toString i ++ " 轮结束"

/-- The `while` loop of `play_loop`: while `loop_index < total_loops` and
the stop flag reads unset, play all events once (`prev_t` restarts at `0`),
then—still inside the loop body—log the loop end and sleep `gap` if
`gap > 0`.  An abort inside the event loop returns immediately (skipping
the completion log).  `fuel` bounds the number of `while` iterations so the
(possibly infinite) loop is total. -/
def playLoops (f : ℕ → Bool) (speed gap : ℚ) (events : List Event) (loops : Int) :
    ℕ → ℕ → Int → LRes
  | 0, k, _ => ⟨k, []⟩
  | fuel + 1, k, idx =>
    if loopCond loops idx then
      if f k then ⟨k + 1, [TraceItem.check true, TraceItem.logMsg "回放完成"]⟩
      else
        let r := playEvents f speed (k + 1) 0 events
        if r.aborted then
          ⟨r.k, TraceItem.check false :: TraceItem.logMsg (playStartLog (idx + 1)) :: r.tr⟩
        else
          let r2 := playLoops f speed gap events loops fuel r.k (idx + 1)
          ⟨r2.k, TraceItem.check false :: TraceItem.logMsg (playStartLog (idx + 1)) :: r.tr ++
            TraceItem.logMsg (playEndLog (idx + 1)) ::
            (if 0 < gap then [TraceItem.sleep gap] else []) ++ r2.tr⟩
    else ⟨k, [TraceItem.logMsg "回放完成"]⟩

/-- The whole `play_loop` worker: an optional one-time start delay, then
the loop of loops. -/
def playTrace (f : ℕ → Bool) (speed : ℚ) (loops : Int) (gap delay : ℚ)
    (events : List Event) (fuel : ℕ) : List TraceItem :=
  (if 0 < delay then
    [TraceItem.logMsg ("延迟 " ++ toString delay ++ " 秒开始回放"), TraceItem.sleep delay]
  else []) ++ (playLoops f speed gap events loops fuel 0 0).tr

/-- `Marker` dataclass of `AC.py`. -/
structure MarkerD where
  id : Int
  x : Int
  y : Int
  button : String
  interval : ℚ
deriving DecidableEq

/-- What the click-loop worker does for one marker: move the pointer to the
marker, click its button, log, then sleep `max(0.01, min(5.0, interval))`. -/
def markerTrace (m : MarkerD) : List TraceItem :=
  [TraceItem.out (OutAction.move m.x m.y),
   TraceItem.out (OutAction.click (if m.button = "left" then MBtn.left else MBtn.right)),
   TraceItem.logMsg ("点击 #" ++ toString m.id),
   TraceItem.sleep (max (1/100) (min 5 m.interval))]

/-- The per-marker `for` loop of `ClickRunner.start.worker`: before each
marker the stop flag is read; on `True` the `for` loop `break`s (the
current loop is abandoned, control returns to the `while` condition). -/
def clickMarkers (f : ℕ → Bool) : ℕ → List MarkerD → WRes
  | k, [] => ⟨k, [], false⟩
  | k, m :: ms =>
    if f k then ⟨k + 1, [TraceItem.check true], true⟩
    else
      let r := clickMarkers f (k + 1) ms
      ⟨r.k, TraceItem.check false :: markerTrace m ++ r.tr, r.aborted⟩

/-- Log line at the start of click loop number `i`. -/
def clickStartLog (i : Int) : String := "开始第 " ++ toString i ++ " 轮"

/-- Log line at the end of click loop number `i`. -/
def clickEndLog (i : Int) : String := "结束第 " ++ toString i ++ " 轮"

/-- The `while` loop of `ClickRunner.start.worker`: while
`loop_idx < total_loops` and the stop flag reads unset, run the markers
once; a `break` out of the marker loop still logs the loop end and then
re-reads the flag in the `while` condition. -/
def clickLoops (f : ℕ → Bool) (ms : List MarkerD) (loops : Int) : ℕ → ℕ → Int → LRes
  | 0, k, _ => ⟨k, []⟩
  | fuel + 1, k, idx =>
    if loopCond loops idx then
      if f k then ⟨k + 1, [TraceItem.check true, TraceItem.logMsg "连点完成"]⟩
      else
        let r := clickMarkers f (k + 1) ms
        let r2 := clickLoops f ms loops fuel r.k (idx + 1)
        ⟨r2.k, TraceItem.check false :: TraceItem.logMsg (clickStartLog (idx + 1)) :: r.tr ++
          TraceItem.logMsg (clickEndLog (idx + 1)) :: r2.tr⟩
    else ⟨k, [TraceItem.logMsg "连点完成"]⟩

/-- The whole `ClickRunner.start.worker`: an optional start delay
(`time.sleep(max(0.0, cfg.delay))`), then the loop of loops. -/
def clickTrace (f : ℕ → Bool) (ms : List MarkerD) (loops : Int) (delay : ℚ)
    (fuel : ℕ) : List TraceItem :=
  (if 0 < delay then
    [TraceItem.logMsg ("启动延迟 " ++ toString delay ++ "s 后开始"), TraceItem.sleep (max 0 delay)]
  else []) ++ (clickLoops f ms loops fuel 0 0).tr

/-! ## Trace predicates -/

/-- Is the trace item an injected output action? -/
def isOutB : TraceItem → Bool
  | TraceItem.out _ => true
  | _ => false

/-- Is the trace item an observation of the flag reading `true`? -/
def isTrueCheckB : TraceItem → Bool
  | TraceItem.check true => true
  | _ => false

/-- The trace contains no injected output action. -/
def noOutB (l : List TraceItem) : Bool := l.all fun t => !isOutB t

/-- The trace contains an observation of the flag reading `true`. -/
def hasTrueCheckB (l : List TraceItem) : Bool := l.any isTrueCheckB

/-- After the first observation of the flag reading `true`, the trace
contains no injected output action whatsoever (hence none after any later
`true` observation either). -/
def noOutAfterTrueB : List TraceItem → Bool
  | [] => true
  | TraceItem.check true :: rest => noOutB rest
  | _ :: rest => noOutAfterTrueB rest

/-- Keep only the externally-effectful items (outputs and suspensions),
dropping log lines and flag reads. -/
def effects (l : List TraceItem) : List TraceItem := l.filter isEffB
where
  /-- Is the item an output or a suspension? -/
  isEffB : TraceItem → Bool
    | TraceItem.out _ => true
    | TraceItem.sleep _ => true
    | _ => false

/-- The cancellation flag is cooperative and monotone: once a read returns
`true`, every later read returns `true` (a `threading.Event` is only set,
never cleared, during a run). -/
def MonoFlag (f : ℕ → Bool) : Prop := ∀ i j : ℕ, i ≤ j → f i = true → f j = true

/-- Timestamps are monotonically non-decreasing starting from `prev`
(playback starts each loop with `prev_t = 0`). -/
def tsMonoB (prev : ℚ) : List Event → Bool
  | [] => true
  | ev :: rest => decide (prev ≤ ev.t) && tsMonoB ev.t rest

/-! ## Definitions written from the specification's words (for refinement
claims C1 and C7 these are compared against the definitions above, which
are embedded from the source). -/

/-- Per-loop playback effects as the spec words them: `prev_t = 0`; for
each event in snapshot order suspend `(event.elapsed_seconds - prev_t) /
speed` clamped to `≥ 0`, then apply the event's effect, then set `prev_t`
to the event's timestamp. -/
def specLoopEffects (speed : ℚ) : ℚ → List Event → List TraceItem
  | _, [] => []
  | prev, ev :: rest =>
    TraceItem.sleep (max 0 ((ev.t - prev) / speed)) ::
      (applyEventActions ev).map TraceItem.out ++ specLoopEffects speed ev.t rest

/-- Whole-playback effects as the spec words them: the loop effects
repeated `n` times with a `gap` suspension only *between* consecutive
loops (`n - 1` gap suspensions, none after the final loop). -/
def specPlaybackEffects (speed gap : ℚ) (events : List Event) : ℕ → List TraceItem
  | 0 => []
  | 1 => specLoopEffects speed 0 events
  | n + 2 => specLoopEffects speed 0 events ++ TraceItem.sleep gap ::
      specPlaybackEffects speed gap events (n + 1)

/-- Playback effects with the gap suspension after *every* loop, the
structure the source code actually produces. -/
def gapAfterEveryLoopEffects (speed gap : ℚ) (events : List Event) : ℕ → List TraceItem
  | 0 => []
  | n + 1 => specLoopEffects speed 0 events ++ TraceItem.sleep gap ::
      gapAfterEveryLoopEffects speed gap events n

/-! ## Hotkey capture sessions (`_begin_capture` of both pages) -/

/-- The capture-session state a page owns: `self._capture_action`. -/
structure PageCapture where
  captureAction : Option String
deriving DecidableEq

/-- Result of a begin-capture request on one page. -/
structure BeginRes where
  busy : Bool
  st : PageCapture
  listenerStarted : Bool
deriving DecidableEq

/-- `_begin_capture(action)` of either page: if `self._capture_action` is
not `None`, show the busy message and return (no listener started);
otherwise record the action and start the capture key listener. -/
def begin_capture (st : PageCapture) (action : String) : BeginRes :=
  match st.captureAction with
  | some _ => ⟨true, st, false⟩
  | none => ⟨false, ⟨some action⟩, true⟩

/-- The two pages' capture-session slots (process state). -/
structure AppCapture where
  clk : PageCapture
  recp : PageCapture
deriving DecidableEq

/-- `ClickerPage._begin_capture` at the process level. -/
def clickerBegin (a : AppCapture) (action : String) : BeginRes × AppCapture :=
  let r := begin_capture a.clk action
  (r, { a with clk := r.st })

/-- `RecorderPage._begin_capture` at the process level. -/
def recorderBegin (a : AppCapture) (action : String) : BeginRes × AppCapture :=
  let r := begin_capture a.recp action
  (r, { a with recp := r.st })

/-! ## Binding tables and chord-conflict checking -/

/-- `ClickerPage.hotkeys`: the clicker page's binding table. -/
structure ClkKeys where
  start_stop : String
  add_marker : String
deriving DecidableEq

/-- `RecorderPage.hotkeys`: the recorder page's binding table. -/
structure RecKeys where
  toggle_record : String
  toggle_play : String
deriving DecidableEq

/-- Both pages' binding tables. -/
structure Tables where
  clk : ClkKeys
  recp : RecKeys
deriving DecidableEq

/-- All four chords currently held, in dictionary insertion order. -/
def chords (t : Tables) : List String :=
  [t.clk.start_stop, t.clk.add_marker, t.recp.toggle_record, t.recp.toggle_play]

/-- No chord is owned by two (page, action) pairs. -/
def UniqueChords (t : Tables) : Prop := (chords t).Nodup

/-- `ClickerPage._is_hotkey_in_use(combo, exclude_action)`: the combo is
held by another action of this page, or by any action of the other page
(`get_all_hotkeys(except_page=self)`). -/
def clkInUse (t : Tables) (combo : String) (ex : Option String) : Bool :=
  (decide (ex ≠ some "start_stop") && decide (t.clk.start_stop = combo))
  || (decide (ex ≠ some "add_marker") && decide (t.clk.add_marker = combo))
  || decide (combo = t.recp.toggle_record) || decide (combo = t.recp.toggle_play)

/-- `RecorderPage._is_hotkey_in_use(combo, exclude_action)`. -/
def recInUse (t : Tables) (combo : String) (ex : Option String) : Bool :=
  (decide (ex ≠ some "toggle_record") && decide (t.recp.toggle_record = combo))
  || (decide (ex ≠ some "toggle_play") && decide (t.recp.toggle_play = combo))
  || decide (combo = t.clk.start_stop) || decide (combo = t.clk.add_marker)

/-- The chord-commit step of the clicker capture listener's `on_press`:
a candidate in use elsewhere is discarded (tables unchanged, session keeps
capturing), otherwise `self.hotkeys[action] = combo`.  The `Bool` reports
whether the candidate was committed. -/
def clkCommit (t : Tables) (action combo : String) : Tables × Bool :=
  if clkInUse t combo (some action) then (t, false)
  else
    (if action = "start_stop" then { t with clk := { t.clk with start_stop := combo } }
     else if action = "add_marker" then { t with clk := { t.clk with add_marker := combo } }
     else t, true)

/-- The chord-commit step of the recorder capture listener's `on_press`. -/
def recCommit (t : Tables) (action combo : String) : Tables × Bool :=
  if recInUse t combo (some action) then (t, false)
  else
    (if action = "toggle_record" then { t with recp := { t.recp with toggle_record := combo } }
     else if action = "toggle_play" then { t with recp := { t.recp with toggle_play := combo } }
     else t, true)

/-- The optional `hotkeys` entries of a persisted clicker document. -/
structure HkDoc where
  start_stop : Option String := none
  add_marker : Option String := none
deriving DecidableEq

/-- The hotkey part of `ClickerPage.import_state`:
`self.hotkeys.update(hk)` — the given entries are written unconditionally
("去重由主程序处理；此处直接接收": no conflict check here). -/
def clkImportHotkeys (t : Tables) (d : HkDoc) : Tables :=
  { t with clk := { start_stop := d.start_stop.getD t.clk.start_stop,
                    add_marker := d.add_marker.getD t.clk.add_marker } }

/-! ## The clicker page's marker store (Python object heap) -/

/-- `ClickerPage`'s marker state, modelling Python reference semantics:
`heap` is the object store (one cell per `Marker` object ever created),
`refs` is `self.markers`, a list of references into the heap.
`list.copy()` copies `refs` but shares the heap cells. -/
structure ClkPage where
  heap : List MarkerD
  refs : List ℕ
deriving DecidableEq

/-- The marker values the list currently denotes. -/
def resolve (p : ClkPage) : List MarkerD :=
  p.refs.filterMap fun r => p.heap[r]?

/-- Overwrite the `id` field of the cell at address `r` (in-place `m.id =`
mutation of a shared object). -/
def setId (heap : List MarkerD) (r : ℕ) (n : Int) : List MarkerD :=
  match heap[r]? with
  | some m => heap.set r { m with id := n }
  | none => heap

/-- The renumbering pass of `ClickerPage._refresh`:
`for idx, m in enumerate(self.markers, start=1): m.id = idx` — an in-place
mutation of every referenced marker object's `id`. -/
def renumber (heap : List MarkerD) : List ℕ → Int → List MarkerD
  | [], _ => heap
  | r :: rs, i => renumber (setId heap r i) rs (i + 1)

/-- `ClickerPage._refresh` (its data part): renumber ids densely 1..N. -/
def refreshPage (p : ClkPage) : ClkPage :=
  { p with heap := renumber p.heap p.refs 1 }

/-- `ClickerPage.add_marker`: create a fresh `Marker` object (default
button `"left"`, interval `0.2`) at position `(x, y)`, append the
reference, then `_refresh`. -/
def add_marker (p : ClkPage) (x y : Int) : ClkPage :=
  refreshPage { heap := p.heap ++ [⟨(p.refs.length : Int) + 1, x, y, "left", 1/5⟩],
                refs := p.refs ++ [p.heap.length] }

/-- Marker deletion (`del self.markers[mid - 1]` followed by `_refresh`):
the reference is removed; the heap cell itself survives. -/
def delete_marker (p : ClkPage) (i : ℕ) : ClkPage :=
  refreshPage { p with refs := p.refs.eraseIdx i }

/-- `ClickerPage.clear_markers`: `self.markers.clear()` then `_refresh`. -/
def clear_markers (p : ClkPage) : ClkPage :=
  refreshPage { p with refs := [] }

/-- A committed in-cell edit from the Treeview editor (the value as parsed
from the entry text). -/
inductive EditVal
  | ex (q : ℚ)
  | ey (q : ℚ)
  | ebtn (s : String)
  | einterval (q : ℚ)
deriving DecidableEq

/-- Python `int(·)`: truncation toward zero. -/
def truncInt (q : ℚ) : Int := if 0 ≤ q then ⌊q⌋ else -⌊-q⌋

/-- The field update `ClickerPage._commit_editor` applies to the marker
object: `x`/`y` via `int(float(v))`, `btn` mapped from the display string,
`interval` via `float(v)` raised to `0.01` when below it (no upper clamp). -/
def applyEdit (m : MarkerD) : EditVal → MarkerD
  | EditVal.ex q => { m with x := truncInt q }
  | EditVal.ey q => { m with y := truncInt q }
  | EditVal.ebtn s => { m with button := if s = "左键" then "left" else "right" }
  | EditVal.einterval q => { m with interval := if q < 1/100 then 1/100 else q }

/-- `ClickerPage._commit_editor`: look up the marker object by row index
and mutate it in place; any failure is swallowed; `_refresh` always runs. -/
def commit_editor (p : ClkPage) (row : ℕ) (v : EditVal) : ClkPage :=
  match p.refs[row]? with
  | some r =>
    match p.heap[r]? with
    | some m => refreshPage { p with heap := p.heap.set r (applyEdit m v) }
    | none => refreshPage p
  | none => refreshPage p

/-- `ClickerPage.toggle_start`'s start branch hands the runner
`self.markers.copy()`: a copy of the reference list (heap cells shared). -/
def snapshotRefs (p : ClkPage) : List ℕ := p.refs

/-- The outputs and suspensions an in-flight run produces when it reads
the marker objects through snapshot references `snap` against heap state
`heap` (the worker reads `m.x`, `m.y`, `m.button`, `m.interval` live). -/
def runEffects (heap : List MarkerD) : List ℕ → List TraceItem
  | [] => []
  | r :: rs => (match heap[r]? with
      | some m => effects (markerTrace m)
      | none => []) ++ runEffects heap rs

/-- A structural marker-list edit (the operations the page offers that
change the list rather than a marker's fields). -/
inductive StructOp
  | addM (x y : Int)
  | delM (i : ℕ)
deriving DecidableEq

/-- Apply one structural edit. -/
def applyOp (p : ClkPage) : StructOp → ClkPage
  | StructOp.addM x y => add_marker p x y
  | StructOp.delM i => delete_marker p i

/-- Apply a sequence of structural edits. -/
def applyOps (p : ClkPage) (ops : List StructOp) : ClkPage := ops.foldl applyOp p

/-! ## Persisted-document loading -/

/-- A persisted scalar field value: convertible to a number, or not
(`int(·)` / `float(·)` raises on it). -/
inductive FVal
  | num (q : ℚ)
  | bad
deriving DecidableEq

/-- One marker entry of a persisted clicker document (`m.get(...)` yields
the field when present). -/
structure MarkerDoc where
  x : Option FVal := none
  y : Option FVal := none
  button : Option String := none
  interval : Option FVal := none
deriving DecidableEq

/-- Mutate the heap cell at address `a` (in-place field assignment on the
freshly added marker object). -/
def setCell (p : ClkPage) (a : ℕ) (g : MarkerD → MarkerD) : ClkPage :=
  match p.heap[a]? with
  | some m => { p with heap := p.heap.set a (g m) }
  | none => p

/-- The body of the marker-loading loop of `ClickerPage.load_config_file`
for one document entry: `add_marker()` then assign `mm.x`, `mm.y`,
`mm.button`, `mm.interval` in that order from the document, converting
numbers; the first unconvertible value raises, leaving the earlier
assignments applied (`Bool` is `false` when the entry raised). -/
def applyDoc (p0 : ClkPage) (px py : Int) (d : MarkerDoc) : ClkPage × Bool :=
  let a := p0.heap.length
  let p1 := add_marker p0 px py
  if d.x = some FVal.bad then (p1, false) else
  let p2 := match d.x with
    | some (FVal.num q) => setCell p1 a fun m => { m with x := truncInt q }
    | _ => p1
  if d.y = some FVal.bad then (p2, false) else
  let p3 := match d.y with
    | some (FVal.num q) => setCell p2 a fun m => { m with y := truncInt q }
    | _ => p2
  let p4 := match d.button with
    | some s => setCell p3 a fun m => { m with button := s }
    | none => p3
  if d.interval = some FVal.bad then (p4, false) else
  let p5 := match d.interval with
    | some (FVal.num q) => setCell p4 a fun m => { m with interval := q }
    | _ => p4
  (p5, true)

/-- The marker-loading loop: entries are applied in order; a raising entry
aborts the loop with the state reached so far. -/
def docsLoop (px py : Int) : ClkPage → List MarkerDoc → ClkPage × Bool
  | p, [] => (p, true)
  | p, d :: ds =>
    let r := applyDoc p px py d
    if r.2 then docsLoop px py r.1 ds else r

/-- The clicker page state the load path touches (markers plus the loop
and delay parameters; the hotkey merge is modelled separately by
`clkImportHotkeys`). -/
structure ClkState where
  page : ClkPage
  loops : Int
  delay : ℚ
deriving DecidableEq

/-- `ClickerPage.load_config_file` after the document has been read:
`clear_markers()` first, then the `loops`/`delay` parameters are applied,
then the marker entries are loaded one by one; an entry that fails to
convert raises out of the handler, and the final `_refresh` only runs
after a fully successful loop.  The `Bool` reports success. -/
def clk_load_config (st : ClkState) (px py : Int) (dLoops : Int) (dDelay : ℚ)
    (docs : List MarkerDoc) : ClkState × Bool :=
  let p0 := clear_markers st.page
  let r := docsLoop px py p0 docs
  (⟨if r.2 then refreshPage r.1 else r.1, dLoops, dDelay⟩, r.2)

/-- One event entry of a persisted recording document: the eight known
fields, plus whether the entry carries a key `Event(**e)` does not accept
(which raises `TypeError`).  `t` and `type` have no dataclass default, so
their absence also raises. -/
structure EventDoc where
  t : Option ℚ := none
  type : Option String := none
  x : Option Int := none
  y : Option Int := none
  dx : Option Int := none
  dy : Option Int := none
  button : Option String := none
  key : Option String := none
  extraKeys : Bool := false
deriving DecidableEq

/-- `Event(**e)` for one entry: `none` models the raised `TypeError`. -/
def parseEvent (d : EventDoc) : Option Event :=
  if d.extraKeys then none
  else
    match d.t, d.type with
    | some t, some ty =>
      some ⟨t, ty, d.x.getD 0, d.y.getD 0, d.dx.getD 0, d.dy.getD 0,
        d.button.getD "", d.key.getD ""⟩
    | _, _ => none

/-- The list comprehension `[Event(**e) for e in data]`: fully built
before it is assigned, so one bad entry fails the whole list. -/
def parseAllEvents : List EventDoc → Option (List Event)
  | [] => some []
  | d :: ds =>
    match parseEvent d, parseAllEvents ds with
    | some e, some es => some (e :: es)
    | _, _ => none

/-- `RecorderPlayer.load_from_file` after the document has been read:
`self.recording.events = [Event(**e) for e in data]` — the assignment
happens only if every entry parses; otherwise the exception propagates
and the prior recording is untouched.  The `Bool` reports success. -/
def rec_load (st : List Event) (docs : List EventDoc) : List Event × Bool :=
  match parseAllEvents docs with
  | some evs => (evs, true)
  | none => (st, false)

/-! ## Start guards -/

/-- The `RecorderPlayer` state `start_playback` consults and updates. -/
structure RPState where
  events : List Event
  isPlaying : Bool
  stopPlaySet : Bool
deriving DecidableEq

/-- The outcome of `start_playback`: the boolean-plus-message result, the
state afterwards, and the snapshot handed to the one background task
(`none` when no task is launched). -/
structure StartPlayRes where
  ok : Bool
  msg : String
  st : RPState
  task : Option (List Event)
deriving DecidableEq

/-- `RecorderPlayer.start_playback`: fail with "没有录制数据" on an empty
recording, fail with "回放已在进行中" when a playback is alive — in both
cases leaving the state untouched and launching nothing; otherwise clear
the stop flag, snapshot the events (`list(self.recording.events)`), mark
the engine playing and launch one background task, returning at once. -/
def start_playback (st : RPState) : StartPlayRes :=
  if st.events.isEmpty then ⟨false, "没有录制数据", st, none⟩
  else if st.isPlaying then ⟨false, "回放已在进行中", st, none⟩
  else ⟨true, "开始回放", { st with isPlaying := true, stopPlaySet := false },
    some st.events⟩

/-- Outcome of `ClickRunner.start`: the returned boolean, the log lines
the call itself emitted, and whether the worker thread was started. -/
structure StartClickRes where
  ok : Bool
  logs : List String
  started : Bool
deriving DecidableEq

/-- `ClickRunner.start(markers, cfg)`: an empty marker list logs
"没有标记坐标" and returns `False`; an already-running runner returns
`False` with no log line at all; otherwise the worker is started. -/
def click_start (running : Bool) (ms : List MarkerD) : StartClickRes :=
  if ms.isEmpty then ⟨false, ["没有标记坐标"], false⟩
  else if running then ⟨false, [], false⟩
  else ⟨true, [], true⟩

/-- The fields of a marker object an in-flight run's outputs and waits
depend on (everything but the display `id`). -/
def effView (m : MarkerD) : Int × Int × String × ℚ := (m.x, m.y, m.button, m.interval)

/-- `h'` extends `h`: no cell below `h.length` changed its `effView`. -/
def HeapExt (h h' : List MarkerD) : Prop :=
  h.length ≤ h'.length ∧ ∀ a, a < h.length → (h'[a]?).map effView = (h[a]?).map effView

/-! ## Helper lemmas on traces -/

theorem effects_nil : effects [] = [] := rfl

theorem effects_cons_check (b : Bool) (l : List TraceItem) :
    effects (TraceItem.check b :: l) = effects l := rfl

theorem effects_cons_log (s : String) (l : List TraceItem) :
    effects (TraceItem.logMsg s :: l) = effects l := rfl

theorem effects_cons_out (a : OutAction) (l : List TraceItem) :
    effects (TraceItem.out a :: l) = TraceItem.out a :: effects l := rfl

theorem effects_cons_sleep (d : ℚ) (l : List TraceItem) :
    effects (TraceItem.sleep d :: l) = TraceItem.sleep d :: effects l := rfl

theorem effects_append (l₁ l₂ : List TraceItem) :
    effects (l₁ ++ l₂) = effects l₁ ++ effects l₂ := List.filter_append _ _

theorem effects_map_out (l : List OutAction) :
    effects (l.map TraceItem.out) = l.map TraceItem.out := by
  induction l with
  | nil => rfl
  | cons a rest ih => simpa [effects_cons_out] using ih

theorem noOutB_append (l₁ l₂ : List TraceItem) :
    noOutB (l₁ ++ l₂) = (noOutB l₁ && noOutB l₂) := by
  simp [noOutB, List.all_append]

theorem hasTrueCheckB_cons (x : TraceItem) (l : List TraceItem) :
    hasTrueCheckB (x :: l) = (isTrueCheckB x || hasTrueCheckB l) := List.any_cons

theorem hasTrueCheckB_append (l₁ l₂ : List TraceItem) :
    hasTrueCheckB (l₁ ++ l₂) = (hasTrueCheckB l₁ || hasTrueCheckB l₂) := by
  simp [hasTrueCheckB]

theorem hasTrueCheckB_map_out (l : List OutAction) :
    hasTrueCheckB (l.map TraceItem.out) = false := by
  induction l with
  | nil => rfl
  | cons a rest ih => simp [hasTrueCheckB_cons, isTrueCheckB, ih]

theorem noOutAfterTrueB_cons_skip (x : TraceItem) (l : List TraceItem)
    (hx : isTrueCheckB x = false) :
    noOutAfterTrueB (x :: l) = noOutAfterTrueB l := by
  cases x with
  | check b => cases b with
    | false => rfl
    | true => simp [isTrueCheckB] at hx
  | out a => rfl
  | sleep d => rfl
  | logMsg s => rfl

theorem noOutAfterTrueB_of_noOutB (l : List TraceItem) (h : noOutB l = true) :
    noOutAfterTrueB l = true := by
  induction l with
  | nil => rfl
  | cons x rest ih =>
    have hrest : noOutB rest = true := by
      have := h
      simp [noOutB] at this ⊢
      exact fun t ht => this.2 t ht
    cases x with
    | check b =>
      cases b with
      | false => simpa [noOutAfterTrueB] using ih hrest
      | true => simpa [noOutAfterTrueB] using hrest
    | out a =>
      exfalso
      simp [noOutB, isOutB] at h
    | sleep d => simpa [noOutAfterTrueB] using ih hrest
    | logMsg s => simpa [noOutAfterTrueB] using ih hrest

theorem noOutAfterTrueB_of_no_true (l : List TraceItem) (h : hasTrueCheckB l = false) :
    noOutAfterTrueB l = true := by
  induction l with
  | nil => rfl
  | cons x rest ih =>
    rw [hasTrueCheckB_cons] at h
    have hx : isTrueCheckB x = false := by
      cases hx' : isTrueCheckB x <;> simp [hx'] at h ⊢
    have hrest : hasTrueCheckB rest = false := by
      simp [hx] at h
      exact h
    rw [noOutAfterTrueB_cons_skip x rest hx]
    exact ih hrest

theorem noOutAfterTrueB_append (l₁ l₂ : List TraceItem)
    (h1 : noOutAfterTrueB l₁ = true) (h2 : noOutAfterTrueB l₂ = true)
    (h3 : hasTrueCheckB l₁ = true → noOutB l₂ = true) :
    noOutAfterTrueB (l₁ ++ l₂) = true := by
  induction l₁ with
  | nil => exact h2
  | cons x rest ih =>
    cases hx : isTrueCheckB x with
    | false =>
      rw [List.cons_append, noOutAfterTrueB_cons_skip x _ hx]
      apply ih
      · rwa [noOutAfterTrueB_cons_skip x rest hx] at h1
      · intro ht
        exact h3 (by rw [hasTrueCheckB_cons, ht, hx]; rfl)
    | true =>
      have hx' : x = TraceItem.check true := by
        cases x with
        | check b => cases b with
          | true => rfl
          | false => simp [isTrueCheckB] at hx
        | out a => simp [isTrueCheckB] at hx
        | sleep d => simp [isTrueCheckB] at hx
        | logMsg s => simp [isTrueCheckB] at hx
      subst hx'
      have hrest : noOutB rest = true := by simpa [noOutAfterTrueB] using h1
      have hl2 : noOutB l₂ = true := h3 (by rw [hasTrueCheckB_cons]; simp [isTrueCheckB])
      show noOutB (rest ++ l₂) = true
      rw [noOutB_append, hrest, hl2]
      rfl

theorem noOutAfterTrueB_cons_check_false (l : List TraceItem) :
    noOutAfterTrueB (TraceItem.check false :: l) = noOutAfterTrueB l := rfl

theorem noOutAfterTrueB_cons_sleep (d : ℚ) (l : List TraceItem) :
    noOutAfterTrueB (TraceItem.sleep d :: l) = noOutAfterTrueB l := rfl

theorem noOutAfterTrueB_cons_log (s : String) (l : List TraceItem) :
    noOutAfterTrueB (TraceItem.logMsg s :: l) = noOutAfterTrueB l := rfl

/-! ## Cancellation safety of the two workers -/

theorem hasTrueCheckB_markerTrace (m : MarkerD) : hasTrueCheckB (markerTrace m) = false := by
  simp [markerTrace, hasTrueCheckB, isTrueCheckB]

theorem playEvents_inv (f : ℕ → Bool) (hf : MonoFlag f) (speed : ℚ) (evs : List Event) :
    ∀ (k : ℕ) (prev : ℚ),
      noOutAfterTrueB (playEvents f speed k prev evs).tr = true ∧
      hasTrueCheckB (playEvents f speed k prev evs).tr = (playEvents f speed k prev evs).aborted ∧
      ((playEvents f speed k prev evs).aborted = true → f (playEvents f speed k prev evs).k = true) := by
  induction evs with
  | nil =>
    intro k prev
    refine ⟨rfl, rfl, ?_⟩
    intro h
    simp [playEvents] at h
  | cons ev rest ih =>
    intro k prev
    by_cases hfk : f k = true
    · simp only [playEvents, hfk, if_true]
      exact ⟨rfl, rfl, fun _ => hf k (k + 1) (Nat.le_succ k) hfk⟩
    · rw [Bool.not_eq_true] at hfk
      obtain ⟨ih1, ih2, ih3⟩ := ih (k + 1) ev.t
      simp only [playEvents, hfk, Bool.false_eq_true, if_false]
      simp only [List.cons_append, List.append_assoc]
      refine ⟨?_, ?_, ih3⟩
      · rw [noOutAfterTrueB_cons_check_false, noOutAfterTrueB_cons_sleep]
        refine noOutAfterTrueB_append _ _ ?_ ih1 ?_
        · exact noOutAfterTrueB_of_no_true _ (hasTrueCheckB_map_out _)
        · intro h
          rw [hasTrueCheckB_map_out] at h
          exact absurd h (by simp)
      · rw [hasTrueCheckB_cons, hasTrueCheckB_cons, hasTrueCheckB_append,
          hasTrueCheckB_map_out, ih2]
        simp [isTrueCheckB]

theorem clickMarkers_inv (f : ℕ → Bool) (hf : MonoFlag f) (ms : List MarkerD) :
    ∀ (k : ℕ),
      noOutAfterTrueB (clickMarkers f k ms).tr = true ∧
      hasTrueCheckB (clickMarkers f k ms).tr = (clickMarkers f k ms).aborted ∧
      ((clickMarkers f k ms).aborted = true → f (clickMarkers f k ms).k = true) := by
  induction ms with
  | nil =>
    intro k
    refine ⟨rfl, rfl, ?_⟩
    intro h
    simp [clickMarkers] at h
  | cons m rest ih =>
    intro k
    by_cases hfk : f k = true
    · simp only [clickMarkers, hfk, if_true]
      exact ⟨rfl, rfl, fun _ => hf k (k + 1) (Nat.le_succ k) hfk⟩
    · rw [Bool.not_eq_true] at hfk
      obtain ⟨ih1, ih2, ih3⟩ := ih (k + 1)
      simp only [clickMarkers, hfk, Bool.false_eq_true, if_false]
      simp only [List.cons_append, List.append_assoc]
      refine ⟨?_, ?_, ih3⟩
      · rw [noOutAfterTrueB_cons_check_false]
        refine noOutAfterTrueB_append _ _ ?_ ih1 ?_
        · exact noOutAfterTrueB_of_no_true _ (hasTrueCheckB_markerTrace m)
        · intro h
          rw [hasTrueCheckB_markerTrace] at h
          exact absurd h (by simp)
      · rw [hasTrueCheckB_cons, hasTrueCheckB_append, hasTrueCheckB_markerTrace, ih2]
        simp [isTrueCheckB]

theorem clickLoops_noOut_of_true (f : ℕ → Bool) (ms : List MarkerD) (loops : Int) :
    ∀ (fuel k : ℕ) (idx : Int), f k = true →
      noOutB (clickLoops f ms loops fuel k idx).tr = true := by
  intro fuel k idx h
  cases fuel with
  | zero => rfl
  | succ n =>
    by_cases hc : loopCond loops idx = true
    · simp [clickLoops, hc, h, noOutB, isOutB]
    · rw [Bool.not_eq_true] at hc
      simp [clickLoops, hc, noOutB, isOutB]

theorem clickLoops_inv (f : ℕ → Bool) (hf : MonoFlag f) (ms : List MarkerD) (loops : Int) :
    ∀ (fuel k : ℕ) (idx : Int),
      noOutAfterTrueB (clickLoops f ms loops fuel k idx).tr = true := by
  intro fuel
  induction fuel with
  | zero => intro k idx; rfl
  | succ n ihf =>
    intro k idx
    by_cases hc : loopCond loops idx = true
    · by_cases hfk : f k = true
      · simp [clickLoops, hc, hfk, noOutAfterTrueB, noOutB, isOutB]
      · rw [Bool.not_eq_true] at hfk
        obtain ⟨hm1, hm2, hm3⟩ := clickMarkers_inv f hf ms (k + 1)
        simp only [clickLoops, hc, if_true, hfk, Bool.false_eq_true, if_false]
        simp only [List.cons_append, List.append_assoc]
        rw [noOutAfterTrueB_cons_check_false, noOutAfterTrueB_cons_log]
        refine noOutAfterTrueB_append _ _ hm1 ?_ ?_
        · rw [noOutAfterTrueB_cons_log]
          exact ihf _ _
        · intro ht
          have hab : (clickMarkers f (k + 1) ms).aborted = true := by rw [← hm2]; exact ht
          have hfk' : f (clickMarkers f (k + 1) ms).k = true := hm3 hab
          have hno : noOutB (clickLoops f ms loops n (clickMarkers f (k + 1) ms).k
              (idx + 1)).tr = true := clickLoops_noOut_of_true f ms loops n _ _ hfk'
          simp [noOutB, isOutB] at hno ⊢
          exact hno
    · rw [Bool.not_eq_true] at hc
      simp [clickLoops, hc, noOutAfterTrueB]

theorem playLoops_inv (f : ℕ → Bool) (hf : MonoFlag f) (speed gap : ℚ)
    (events : List Event) (loops : Int) :
    ∀ (fuel k : ℕ) (idx : Int),
      noOutAfterTrueB (playLoops f speed gap events loops fuel k idx).tr = true := by
  intro fuel
  induction fuel with
  | zero => intro k idx; rfl
  | succ n ihf =>
    intro k idx
    by_cases hc : loopCond loops idx = true
    · by_cases hfk : f k = true
      · simp [playLoops, hc, hfk, noOutAfterTrueB, noOutB, isOutB]
      · rw [Bool.not_eq_true] at hfk
        obtain ⟨hp1, hp2, hp3⟩ := playEvents_inv f hf speed events (k + 1) 0
        by_cases hab : (playEvents f speed (k + 1) 0 events).aborted = true
        · simp only [playLoops, hc, if_true, hfk, Bool.false_eq_true, if_false, hab]
          rw [noOutAfterTrueB_cons_check_false, noOutAfterTrueB_cons_log]
          exact hp1
        · rw [Bool.not_eq_true] at hab
          simp only [playLoops, hc, if_true, hfk, Bool.false_eq_true, if_false, hab]
          simp only [List.cons_append, List.append_assoc]
          rw [noOutAfterTrueB_cons_check_false, noOutAfterTrueB_cons_log]
          refine noOutAfterTrueB_append _ _ hp1 ?_ ?_
          · rw [noOutAfterTrueB_cons_log]
            by_cases hg : 0 < gap
            · simp only [hg, if_true]
              rw [List.singleton_append, noOutAfterTrueB_cons_sleep]
              exact ihf _ _
            · simp only [hg, if_false]
              rw [List.nil_append]
              exact ihf _ _
          · intro ht
            rw [hp2, hab] at ht
            exact absurd ht (by simp)
    · rw [Bool.not_eq_true] at hc
      simp [playLoops, hc, noOutAfterTrueB]

/-- C2: for every playback run and every click-loop run, once the
cooperative cancellation flag is observed set, no further output actions
are issued by that run, however many loops or events remained; for the
click-loop the `break` plus the re-checked `while` condition abort the
whole run, not just the current loop. -/
theorem c2_cancellation_stops_outputs (f : ℕ → Bool) (hf : MonoFlag f)
    (speed gap delay : ℚ) (events : List Event) (ploops : Int) (pfuel : ℕ)
    (ms : List MarkerD) (cloops : Int) (cdelay : ℚ) (cfuel : ℕ) :
    noOutAfterTrueB (playTrace f speed ploops gap delay events pfuel) = true ∧
    noOutAfterTrueB (clickTrace f ms cloops cdelay cfuel) = true := by
  constructor
  · unfold playTrace
    by_cases hd : 0 < delay
    · simp only [hd, if_true, List.cons_append, List.singleton_append]
      rw [noOutAfterTrueB_cons_log, noOutAfterTrueB_cons_sleep]
      exact playLoops_inv f hf speed gap events ploops pfuel 0 0
    · simp only [hd, if_false, List.nil_append]
      exact playLoops_inv f hf speed gap events ploops pfuel 0 0
  · unfold clickTrace
    by_cases hd : 0 < cdelay
    · simp only [hd, if_true, List.cons_append, List.singleton_append]
      rw [noOutAfterTrueB_cons_log, noOutAfterTrueB_cons_sleep]
      exact clickLoops_inv f hf ms cloops cfuel 0 0
    · simp only [hd, if_false, List.nil_append]
      exact clickLoops_inv f hf ms cloops cfuel 0 0

/-- C2 witness: a concrete monotone flag that turns on after the first
read, with a concrete recording, marker list, and loop parameters. -/
theorem c2_cancellation_stops_outputs_witness :
    MonoFlag (fun k => decide (1 ≤ k)) ∧
    noOutAfterTrueB (playTrace (fun k => decide (1 ≤ k)) 1 2 0 0
      [{ t := 0, type := "mouse_move", x := 3, y := 4 }] 4) = true ∧
    noOutAfterTrueB (clickTrace (fun k => decide (1 ≤ k))
      [⟨1, 5, 6, "left", 1/5⟩] 2 0 4) = true := by
  have hm : MonoFlag (fun k => decide (1 ≤ k)) := by
    intro i j hij hi
    simp only [decide_eq_true_eq] at hi ⊢
    omega
  have h := c2_cancellation_stops_outputs (fun k => decide (1 ≤ k)) hm 1 0 0
    [{ t := 0, type := "mouse_move", x := 3, y := 4 }] 2 4
    [⟨1, 5, 6, "left", 1/5⟩] 2 0 4
  exact ⟨hm, h.1, h.2⟩

/-! ## Per-loop playback fidelity (claim C1) -/

theorem playEvents_noflag_not_aborted (speed : ℚ) (evs : List Event) :
    ∀ (k : ℕ) (prev : ℚ),
      (playEvents (fun _ => false) speed k prev evs).aborted = false := by
  induction evs with
  | nil => intro k prev; rfl
  | cons ev rest ih =>
    intro k prev
    simp only [playEvents, Bool.false_eq_true, if_false]
    exact ih _ _

theorem effects_playEvents_noflag (speed : ℚ) (hsp : 1/1000000000 ≤ speed)
    (evs : List Event) :
    ∀ (k : ℕ) (prev : ℚ), tsMonoB prev evs = true →
      effects (playEvents (fun _ => false) speed k prev evs).tr
        = specLoopEffects speed prev evs := by
  induction evs with
  | nil => intro k prev _; rfl
  | cons ev rest ih =>
    intro k prev hmono
    rw [tsMonoB, Bool.and_eq_true, decide_eq_true_eq] at hmono
    have hspeed0 : (0 : ℚ) < speed := lt_of_lt_of_le (by norm_num) hsp
    have hmax : max speed (1/1000000000) = speed := max_eq_left hsp
    have hw : max 0 ((ev.t - prev) / speed) = (ev.t - prev) / speed :=
      max_eq_right (div_nonneg (sub_nonneg.2 hmono.1) (le_of_lt hspeed0))
    simp only [playEvents, Bool.false_eq_true, if_false, List.cons_append,
      List.append_assoc]
    rw [effects_cons_check, effects_cons_sleep, effects_append, effects_map_out]
    simp only [specLoopEffects, List.cons_append]
    rw [hmax, hw, ih _ _ hmono.2]

/-- C1 (amended): for every non-empty recording with monotonically
non-decreasing timestamps and every speed `≥ 1e-9`, one playback loop
processes the snapshot's events in recorded order, neither reordering nor
dropping any, suspending before each event for
`(event.elapsed_seconds - prev_t) / speed` clamped to `≥ 0`, with `prev_t`
starting at `0` and set to the event's timestamp after it is applied.
(The source divides by `max(speed, 1e-9)`, so this only matches the
claimed `/ speed` when `speed ≥ 1e-9`.) -/
theorem c1_playback_fidelity_amended (events : List Event) (speed : ℚ)
    (hsp : 1/1000000000 ≤ speed) (hmono : tsMonoB 0 events = true)
    (_hne : events ≠ []) :
    effects (playEvents (fun _ => false) speed 0 0 events).tr
      = specLoopEffects speed 0 events :=
  effects_playEvents_noflag speed hsp events 0 0 hmono

/-- C1 witness: a concrete one-event recording played at speed 1. -/
theorem c1_playback_fidelity_witness :
    (1/1000000000 : ℚ) ≤ 1 ∧
    tsMonoB 0 [{ t := 1, type := "mouse_move", x := 3, y := 4 }] = true ∧
    ([{ t := 1, type := "mouse_move", x := 3, y := 4 }] : List Event) ≠ [] ∧
    effects (playEvents (fun _ => false) 1 0 0
        [{ t := 1, type := "mouse_move", x := 3, y := 4 }]).tr
      = specLoopEffects 1 0 [{ t := 1, type := "mouse_move", x := 3, y := 4 }] :=
  ⟨by norm_num, by norm_num [tsMonoB], by simp,
    c1_playback_fidelity_amended _ 1 (by norm_num) (by norm_num [tsMonoB]) (by simp)⟩

/-- C1 counterexample: at speed `1e-10` (which is `> 0`) the source
suspends `(1 - 0) / max(1e-10, 1e-9) = 1e9` seconds before the event, not
the `(1 - 0) / speed = 1e10` seconds the claim states, so the claimed wait
formula fails for this recording even though its timestamps are
monotonically non-decreasing and the recording is non-empty. -/
theorem c1_playback_fidelity_counterexample :
    (0 : ℚ) < 1/10000000000 ∧
    tsMonoB 0 [{ t := 1, type := "mouse_move", x := 3, y := 4 }] = true ∧
    ([{ t := 1, type := "mouse_move", x := 3, y := 4 }] : List Event) ≠ [] ∧
    effects (playEvents (fun _ => false) (1/10000000000) 0 0
        [{ t := 1, type := "mouse_move", x := 3, y := 4 }]).tr ≠
      specLoopEffects (1/10000000000) 0
        [{ t := 1, type := "mouse_move", x := 3, y := 4 }] := by
  refine ⟨by norm_num, by norm_num [tsMonoB], by simp, ?_⟩
  have hmax : max (1/10000000000 : ℚ) (1/1000000000) = 1/1000000000 :=
    max_eq_right (by norm_num)
  simp only [playEvents, specLoopEffects, Bool.false_eq_true, if_false,
    List.cons_append, List.append_assoc, List.append_nil]
  rw [effects_cons_check, effects_cons_sleep, effects_map_out, hmax]
  intro h
  have h1 := List.head_eq_of_cons_eq h
  rw [TraceItem.sleep.injEq] at h1
  rw [max_eq_right (by norm_num : (0:ℚ) ≤ (1 - 0) / (1/10000000000))] at h1
  norm_num at h1

/-! ## Gap placement across playback loops (claim C7) -/

theorem playLoops_gap_after_every (speed gap : ℚ) (events : List Event)
    (hsp : 1/1000000000 ≤ speed) (hmono : tsMonoB 0 events = true) (hg : 0 < gap) :
    ∀ (rem fuel k : ℕ) (idx loops : Int), rem < fuel → 0 ≤ idx → loops = idx + rem →
      effects (playLoops (fun _ => false) speed gap events loops fuel k idx).tr
        = gapAfterEveryLoopEffects speed gap events rem := by
  intro rem
  induction rem with
  | zero =>
    intro fuel k idx loops hfuel hidx hlo
    cases fuel with
    | zero => omega
    | succ n =>
      have hc : loopCond loops idx = false := by
        unfold loopCond
        rw [if_neg (by omega)]
        simp only [decide_eq_false_iff_not, not_lt]
        omega
      simp only [playLoops, hc, Bool.false_eq_true, if_false]
      rfl
  | succ r ihr =>
    intro fuel k idx loops hfuel hidx hlo
    cases fuel with
    | zero => omega
    | succ n =>
      have hc : loopCond loops idx = true := by
        unfold loopCond
        by_cases hm1 : loops = -1
        · rw [if_pos hm1]
        · rw [if_neg hm1]
          simp only [decide_eq_true_eq]
          omega
      have hab : (playEvents (fun _ => false) speed (k + 1) 0 events).aborted = false :=
        playEvents_noflag_not_aborted speed events (k + 1) 0
      simp only [playLoops, hc, if_true, Bool.false_eq_true, if_false, hab, hg,
        List.cons_append, List.append_assoc, List.singleton_append, List.nil_append]
      rw [effects_cons_check, effects_cons_log, effects_append, effects_cons_log,
        effects_cons_sleep]
      rw [effects_playEvents_noflag speed hsp events (k + 1) 0 hmono]
      rw [ihr n _ (idx + 1) loops (by omega) (by omega) (by omega)]
      simp [gapAfterEveryLoopEffects]

/-- C7 (amended): during playback with loop count `n ≥ 1` and `gap > 0`
(speed `≥ 1e-9`, monotone timestamps), the engine suspends for `gap` after
*every* completed loop including the final one — `n` gap suspensions in
total, one of them after the final loop before the run ends — not only
between consecutive loops. -/
theorem c7_gap_after_every_loop_amended (events : List Event) (speed gap : ℚ)
    (n fuel : ℕ) (hsp : 1/1000000000 ≤ speed) (hmono : tsMonoB 0 events = true)
    (hg : 0 < gap) (_hn : 1 ≤ n) (hfuel : n < fuel) :
    effects (playLoops (fun _ => false) speed gap events (n : Int) fuel 0 0).tr
      = gapAfterEveryLoopEffects speed gap events n :=
  playLoops_gap_after_every speed gap events hsp hmono hg n fuel 0 0 (n : Int)
    hfuel (le_refl 0) (by omega)

/-- C7 witness: one loop of a one-event recording at speed 1 with gap 7. -/
theorem c7_gap_after_every_loop_witness :
    (1/1000000000 : ℚ) ≤ 1 ∧ (0 : ℚ) < 7 ∧ (1 : ℕ) ≤ 1 ∧ (1 : ℕ) < 2 ∧
    effects (playLoops (fun _ => false) 1 7
        [{ t := 1, type := "mouse_move", x := 3, y := 4 }] ((1 : ℕ) : Int) 2 0 0).tr
      = gapAfterEveryLoopEffects 1 7 [{ t := 1, type := "mouse_move", x := 3, y := 4 }] 1 :=
  ⟨by norm_num, by norm_num, le_refl 1, by norm_num,
    c7_gap_after_every_loop_amended [{ t := 1, type := "mouse_move", x := 3, y := 4 }]
      1 7 1 2 (by norm_num) (by norm_num [tsMonoB]) (by norm_num) (le_refl 1) (by norm_num)⟩

/-- C7 counterexample: with `n = 2` loops and `gap = 7 > 0` the run's
effects are not the spec's shape with exactly `n - 1 = 1` inter-loop gap
suspension and none after the final loop: the engine emits two gap
suspensions (one after the final loop), so the effect traces differ. -/
theorem c7_gap_counterexample :
    (2 : ℕ) ≥ 2 ∧ (0 : ℚ) < 7 ∧
    effects (playLoops (fun _ => false) 1 7
        [{ t := 1, type := "mouse_move", x := 3, y := 4 }] ((2 : ℕ) : Int) 3 0 0).tr ≠
      specPlaybackEffects 1 7 [{ t := 1, type := "mouse_move", x := 3, y := 4 }] 2 := by
  refine ⟨le_refl 2, by norm_num, ?_⟩
  have hl := playLoops_gap_after_every 1 7
    [{ t := 1, type := "mouse_move", x := 3, y := 4 }] (by norm_num)
    (by norm_num [tsMonoB]) (by norm_num) 2 3 0 0 ((2 : ℕ) : Int)
    (by norm_num) (le_refl 0) (by omega)
  rw [hl]
  intro h
  have hlen := congrArg List.length h
  simp [gapAfterEveryLoopEffects, specPlaybackEffects, specLoopEffects,
    applyEventActions, effects] at hlen

/-! ## Start guards (claims C8 and C9) -/

/-- C8: `start_playback` fails with the "no data" message on an empty
recording, fails with the "already running" message while a playback is in
progress — in both cases leaving the state untouched and launching no
task — and otherwise snapshots the events, marks the engine playing,
launches one background task, and returns a success result immediately. -/
theorem c8_start_playback_guards (st : RPState) :
    (st.events = [] → start_playback st = ⟨false, "没有录制数据", st, none⟩) ∧
    (st.events ≠ [] → st.isPlaying = true →
      start_playback st = ⟨false, "回放已在进行中", st, none⟩) ∧
    (st.events ≠ [] → st.isPlaying = false →
      start_playback st =
        ⟨true, "开始回放", { st with isPlaying := true, stopPlaySet := false },
          some st.events⟩) := by
  refine ⟨?_, ?_, ?_⟩
  · intro h
    simp [start_playback, h]
  · intro h1 h2
    simp [start_playback, h1, h2]
  · intro h1 h2
    simp [start_playback, h1, h2]

/-- C8 witness: the empty-recording rejection and a successful start at
concrete states. -/
theorem c8_start_playback_guards_witness :
    start_playback ⟨[], false, false⟩ = ⟨false, "没有录制数据", ⟨[], false, false⟩, none⟩ ∧
    start_playback ⟨[{ t := 0, type := "mouse_move", x := 1, y := 2 }], false, true⟩ =
      ⟨true, "开始回放", ⟨[{ t := 0, type := "mouse_move", x := 1, y := 2 }], true, false⟩,
        some [{ t := 0, type := "mouse_move", x := 1, y := 2 }]⟩ :=
  ⟨(c8_start_playback_guards _).1 rfl,
   (c8_start_playback_guards _).2.2 (by simp) rfl⟩

/-- C9 counterexample: starting the click-loop runner while it is already
running is rejected (returns `False`) without a single log line, so not
every rejected operation produces a human-readable explanation. -/
theorem c9_silent_rejection_counterexample :
    (click_start true [⟨1, 5, 5, "left", 1/5⟩]).ok = false ∧
    (click_start true [⟨1, 5, 5, "left", 1/5⟩]).logs = [] :=
  ⟨rfl, rfl⟩

/-- C9 (amended): 'ClickRunner.start' logs "没有标记坐标" when rejecting
an empty marker list, but rejects an already-running start silently:
it returns `False` with no log line and no explanation. -/
theorem c9_rejection_logging_amended (running : Bool) (ms : List MarkerD) :
    (ms = [] → click_start running ms = ⟨false, ["没有标记坐标"], false⟩) ∧
    (ms ≠ [] → running = true → click_start running ms = ⟨false, [], false⟩) := by
  constructor
  · intro h
    simp [click_start, h]
  · intro h1 h2
    simp [click_start, h1, h2]

/-- C9 witness: both rejection branches at concrete inputs. -/
theorem c9_rejection_logging_witness :
    click_start false [] = ⟨false, ["没有标记坐标"], false⟩ ∧
    click_start true [⟨1, 0, 0, "left", 1/5⟩] = ⟨false, [], false⟩ :=
  ⟨(c9_rejection_logging_amended false []).1 rfl,
   (c9_rejection_logging_amended true [⟨1, 0, 0, "left", 1/5⟩]).2 (by simp) rfl⟩

/-! ## Hotkey capture exclusivity (claim C3) -/

/-- C3 counterexample: with the recorder page's capture session open, a
begin-capture request on the clicker page is *not* rejected busy — it
starts a second listener — so at-most-one-capture-session is not enforced
process-wide, only per page. -/
theorem c3_crosspage_capture_counterexample :
    (⟨⟨none⟩, ⟨some "toggle_record"⟩⟩ : AppCapture).recp.captureAction.isSome = true ∧
    (clickerBegin ⟨⟨none⟩, ⟨some "toggle_record"⟩⟩ "start_stop").1.busy = false ∧
    (clickerBegin ⟨⟨none⟩, ⟨some "toggle_record"⟩⟩ "start_stop").1.listenerStarted = true :=
  ⟨rfl, rfl, rfl⟩

/-- C3 (amended): capture exclusivity holds per page: while a page's own
`_capture_action` is set, every begin-capture request on that same page
(for any action) is rejected with the busy dialog, no listener starts and
the state is unchanged, until that session commits or cancels; a capture
session on the other page does not block it. -/
theorem c3_capture_per_page_amended (a : AppCapture) (action : String) :
    (a.clk.captureAction ≠ none →
      clickerBegin a action = (⟨true, a.clk, false⟩, a)) ∧
    (a.clk.captureAction = none →
      clickerBegin a action =
        (⟨false, ⟨some action⟩, true⟩, { a with clk := ⟨some action⟩ })) ∧
    (a.recp.captureAction ≠ none →
      recorderBegin a action = (⟨true, a.recp, false⟩, a)) ∧
    (a.recp.captureAction = none →
      recorderBegin a action =
        (⟨false, ⟨some action⟩, true⟩, { a with recp := ⟨some action⟩ })) := by
  refine ⟨?_, ?_, ?_, ?_⟩
  · intro h
    cases hc : a.clk.captureAction with
    | none => exact absurd hc h
    | some v =>
      simp [clickerBegin, begin_capture, hc]
  · intro hc
    simp [clickerBegin, begin_capture, hc]
  · intro h
    cases hc : a.recp.captureAction with
    | none => exact absurd hc h
    | some v =>
      simp [recorderBegin, begin_capture, hc]
  · intro hc
    simp [recorderBegin, begin_capture, hc]

/-- C3 witness: a busy same-page rejection and an accepted begin at
concrete states. -/
theorem c3_capture_per_page_witness :
    clickerBegin ⟨⟨some "add_marker"⟩, ⟨none⟩⟩ "start_stop" =
      (⟨true, ⟨some "add_marker"⟩, false⟩, ⟨⟨some "add_marker"⟩, ⟨none⟩⟩) ∧
    recorderBegin ⟨⟨none⟩, ⟨none⟩⟩ "toggle_play" =
      (⟨false, ⟨some "toggle_play"⟩, true⟩, ⟨⟨none⟩, ⟨some "toggle_play"⟩⟩) :=
  ⟨(c3_capture_per_page_amended ⟨⟨some "add_marker"⟩, ⟨none⟩⟩ "start_stop").1 (by simp),
   (c3_capture_per_page_amended ⟨⟨none⟩, ⟨none⟩⟩ "toggle_play").2.2.2 rfl⟩

/-! ## Chord uniqueness (claim C4) -/

/-- C4 counterexample: starting from the default (duplicate-free) binding
tables, `ClickerPage.import_state` writes `start_stop := "<f9>"` — a chord
already held by the recorder's `toggle_record` — without any conflict
rejection: the tables change and the resulting state has one chord owned
by two (page, action) pairs. -/
theorem c4_conflict_counterexample :
    UniqueChords ⟨⟨"<f7>", "<f6>"⟩, ⟨"<f9>", "<f10>"⟩⟩ ∧
    clkImportHotkeys ⟨⟨"<f7>", "<f6>"⟩, ⟨"<f9>", "<f10>"⟩⟩ ⟨some "<f9>", none⟩ ≠
      ⟨⟨"<f7>", "<f6>"⟩, ⟨"<f9>", "<f10>"⟩⟩ ∧
    ¬ UniqueChords
      (clkImportHotkeys ⟨⟨"<f7>", "<f6>"⟩, ⟨"<f9>", "<f10>"⟩⟩ ⟨some "<f9>", none⟩) :=
  ⟨by unfold UniqueChords; decide, by decide, by unfold UniqueChords; decide⟩

/-- C4 (amended): chord uniqueness is enforced only on the hotkey-capture
commit path: a capture candidate already held by another action or page is
rejected, leaving both tables unchanged, and a successful commit preserves
uniqueness; the import/load paths (`import_state`, `load_config_file`)
write chords with no cross-page conflict check, so duplicate-chord states
are reachable through them. -/
theorem c4_conflict_registry_amended (t : Tables) (action combo : String) :
    (clkInUse t combo (some action) = true → clkCommit t action combo = (t, false)) ∧
    (recInUse t combo (some action) = true → recCommit t action combo = (t, false)) ∧
    ((action = "start_stop" ∨ action = "add_marker") →
      clkInUse t combo (some action) = false → UniqueChords t →
      UniqueChords (clkCommit t action combo).1) ∧
    ((action = "toggle_record" ∨ action = "toggle_play") →
      recInUse t combo (some action) = false → UniqueChords t →
      UniqueChords (recCommit t action combo).1) := by
  refine ⟨?_, ?_, ?_, ?_⟩
  · intro h
    simp [clkCommit, h]
  · intro h
    simp [recCommit, h]
  · rintro (rfl | rfl) hfree huniq <;>
    · have hf := hfree
      simp [clkInUse] at hfree
      simp [UniqueChords, chords] at huniq
      simp [clkCommit, hf, UniqueChords, chords]
      aesop
  · rintro (rfl | rfl) hfree huniq <;>
    · have hf := hfree
      simp [recInUse] at hfree
      simp [UniqueChords, chords] at huniq
      simp [recCommit, hf, UniqueChords, chords]
      aesop

/-- C4 witness: committing the free chord `<f8>` for the clicker's
start/stop action in the default tables keeps all chords unique. -/
theorem c4_conflict_registry_witness :
    clkInUse ⟨⟨"<f7>", "<f6>"⟩, ⟨"<f9>", "<f10>"⟩⟩ "<f8>" (some "start_stop") = false ∧
    UniqueChords ⟨⟨"<f7>", "<f6>"⟩, ⟨"<f9>", "<f10>"⟩⟩ ∧
    UniqueChords (clkCommit ⟨⟨"<f7>", "<f6>"⟩, ⟨"<f9>", "<f10>"⟩⟩ "start_stop" "<f8>").1 :=
  ⟨by decide, by unfold UniqueChords; decide,
    (c4_conflict_registry_amended ⟨⟨"<f7>", "<f6>"⟩, ⟨"<f9>", "<f10>"⟩⟩ "start_stop"
      "<f8>").2.2.1 (Or.inl rfl) (by decide) (by unfold UniqueChords; decide)⟩

/-! ## Snapshot insulation of the click loop (claim C5) -/

theorem setId_length (h : List MarkerD) (r : ℕ) (n : Int) :
    (setId h r n).length = h.length := by
  unfold setId
  split
  · simp
  · rfl

theorem setId_effView (h : List MarkerD) (r a : ℕ) (n : Int) :
    ((setId h r n)[a]?).map effView = (h[a]?).map effView := by
  unfold setId
  split
  · rename_i m hm
    rw [List.getElem?_set]
    by_cases hra : r = a
    · subst hra
      have hlt : r < h.length := (List.getElem?_eq_some.1 hm).1
      rw [if_pos rfl, if_pos hlt, hm]
      rfl
    · rw [if_neg hra]
  · rfl

theorem renumber_length (rs : List ℕ) :
    ∀ (h : List MarkerD) (i : Int), (renumber h rs i).length = h.length := by
  induction rs with
  | nil => intro h i; rfl
  | cons r rs ih =>
    intro h i
    simp only [renumber]
    rw [ih, setId_length]

theorem renumber_effView (rs : List ℕ) :
    ∀ (h : List MarkerD) (i : Int) (a : ℕ),
      ((renumber h rs i)[a]?).map effView = (h[a]?).map effView := by
  induction rs with
  | nil => intro h i a; rfl
  | cons r rs ih =>
    intro h i a
    simp only [renumber]
    rw [ih, setId_effView]

theorem heapExt_refl (h : List MarkerD) : HeapExt h h :=
  ⟨le_refl _, fun _ _ => rfl⟩

theorem heapExt_trans {h1 h2 h3 : List MarkerD} (e12 : HeapExt h1 h2)
    (e23 : HeapExt h2 h3) : HeapExt h1 h3 :=
  ⟨le_trans e12.1 e23.1,
   fun a ha => (e23.2 a (lt_of_lt_of_le ha e12.1)).trans (e12.2 a ha)⟩

theorem applyOp_heapExt (p : ClkPage) (op : StructOp) :
    HeapExt p.heap (applyOp p op).heap := by
  cases op with
  | addM x y =>
    constructor
    · simp [applyOp, add_marker, refreshPage, renumber_length]
    · intro a ha
      simp only [applyOp, add_marker, refreshPage]
      rw [renumber_effView]
      rw [List.getElem?_append_left ha]
  | delM i =>
    constructor
    · simp [applyOp, delete_marker, refreshPage, renumber_length]
    · intro a ha
      simp only [applyOp, delete_marker, refreshPage]
      rw [renumber_effView]

theorem applyOps_heapExt (ops : List StructOp) :
    ∀ p : ClkPage, HeapExt p.heap (applyOps p ops).heap := by
  induction ops with
  | nil => intro p; exact heapExt_refl _
  | cons op ops ih =>
    intro p
    exact heapExt_trans (applyOp_heapExt p op) (ih (applyOp p op))

theorem markerTrace_effects (m : MarkerD) :
    effects (markerTrace m) =
      [TraceItem.out (OutAction.move m.x m.y),
       TraceItem.out (OutAction.click (if m.button = "left" then MBtn.left else MBtn.right)),
       TraceItem.sleep (max (1/100) (min 5 m.interval))] := rfl

theorem runEffects_congr (h h' : List MarkerD) (hext : HeapExt h h') :
    ∀ snap : List ℕ, (∀ r ∈ snap, r < h.length) →
      runEffects h' snap = runEffects h snap := by
  intro snap
  induction snap with
  | nil => intro _; rfl
  | cons r rs ih =>
    intro hval
    have hr : r < h.length := hval r (by simp)
    have he := hext.2 r hr
    simp only [runEffects]
    rw [ih fun x hx => hval x (by simp [hx])]
    congr 1
    cases hh : h[r]? with
    | none =>
      cases hh' : h'[r]? with
      | none => rfl
      | some m' => rw [hh, hh'] at he; simp at he
    | some m =>
      cases hh' : h'[r]? with
      | none => rw [hh, hh'] at he; simp at he
      | some m' =>
        rw [hh, hh'] at he
        simp only [Option.map_some', Option.some.injEq, effView, Prod.mk.injEq] at he
        show effects (markerTrace m') = effects (markerTrace m)
        rw [markerTrace_effects, markerTrace_effects, he.1, he.2.1, he.2.2.1, he.2.2.2]

/-- C5 (amended): an in-flight click-loop run operates on a copy of the
reference list taken at start time (`self.markers.copy()`), so structural
edits to the caller's list (adding or deleting markers, which also
renumber the shared objects' display ids) leave the positions, buttons,
and waits used by the run unaffected; but the copy is shallow — the
`Marker` objects are shared — so in-place edits of a marker's `x`, `y`,
`button`, or `interval` fields do change what the in-flight run uses. -/
theorem c5_snapshot_structural_amended (p : ClkPage) (ops : List StructOp)
    (hval : ∀ r ∈ snapshotRefs p, r < p.heap.length) :
    runEffects (applyOps p ops).heap (snapshotRefs p)
      = runEffects p.heap (snapshotRefs p) :=
  runEffects_congr p.heap (applyOps p ops).heap (applyOps_heapExt ops p)
    (snapshotRefs p) hval

/-- C5 witness: deleting a marker and adding a new one after the snapshot
leaves the run's outputs unchanged. -/
theorem c5_snapshot_structural_witness :
    (∀ r ∈ snapshotRefs ⟨[⟨1, 10, 10, "left", 1⟩, ⟨2, 20, 20, "right", 2⟩], [0, 1]⟩,
      r < (⟨[⟨1, 10, 10, "left", 1⟩, ⟨2, 20, 20, "right", 2⟩], [0, 1]⟩ : ClkPage).heap.length) ∧
    runEffects (applyOps ⟨[⟨1, 10, 10, "left", 1⟩, ⟨2, 20, 20, "right", 2⟩], [0, 1]⟩
        [StructOp.delM 0, StructOp.addM 7 8]).heap [0, 1]
      = runEffects [⟨1, 10, 10, "left", 1⟩, ⟨2, 20, 20, "right", 2⟩] [0, 1] :=
  ⟨by decide,
   c5_snapshot_structural_amended ⟨[⟨1, 10, 10, "left", 1⟩, ⟨2, 20, 20, "right", 2⟩], [0, 1]⟩
     [StructOp.delM 0, StructOp.addM 7 8] (by decide)⟩

/-- C5 counterexample: committing an editor change of a marker's `x` field
after the snapshot was taken changes the outputs the in-flight run issues
through its snapshot references — the shallow `markers.copy()` shares the
mutated `Marker` object — contradicting the claim that field edits leave
the in-flight run unaffected. -/
theorem c5_shared_marker_counterexample :
    runEffects (commit_editor ⟨[⟨1, 10, 10, "left", 1⟩], [0]⟩ 0 (EditVal.ex 99)).heap
        (snapshotRefs ⟨[⟨1, 10, 10, "left", 1⟩], [0]⟩) ≠
      runEffects (⟨[⟨1, 10, 10, "left", 1⟩], [0]⟩ : ClkPage).heap
        (snapshotRefs ⟨[⟨1, 10, 10, "left", 1⟩], [0]⟩) := by
  intro h
  simp [commit_editor, refreshPage, renumber, setId, applyEdit, truncInt,
    snapshotRefs, runEffects, markerTrace, effects, effects.isEffB] at h

/-! ## Interval clamping (claim C6) -/

theorem applyDoc_interval_raw (p : ClkPage) (px py : Int) (q : ℚ) :
    (((applyDoc p px py ⟨none, none, none, some (FVal.num q)⟩).1.heap)[p.heap.length]?).map
      MarkerD.interval = some q := by
  have hlen : (add_marker p px py).heap.length = p.heap.length + 1 := by
    simp [add_marker, refreshPage, renumber_length]
  have ha : p.heap.length < (add_marker p px py).heap.length := by omega
  obtain ⟨c, hc⟩ : ∃ c, (add_marker p px py).heap[p.heap.length]? = some c :=
    ⟨_, List.getElem?_eq_getElem ha⟩
  simp only [applyDoc, setCell, hc]
  rw [if_neg (show ¬(none : Option FVal) = some FVal.bad by simp),
      if_neg (show ¬(none : Option FVal) = some FVal.bad by simp),
      if_neg (show ¬some (FVal.num q) = some FVal.bad by simp)]
  rw [List.getElem?_set_self ha]
  rfl

/-- C6 counterexample: the editor stores interval input `9.0` as `9.0`
(no upper clamp to `5.0`), and loading a marker entry with interval
`0.0001` stores `0.0001` (no clamp to `0.01` at all), so stored values are
not clamped into `[0.01, 5.0]`. -/
theorem c6_interval_clamp_counterexample :
    (applyEdit ⟨1, 0, 0, "left", 1/5⟩ (EditVal.einterval 9)).interval = 9 ∧
    (9 : ℚ) ≠ 5 ∧
    (((applyDoc ⟨[], []⟩ 0 0 ⟨none, none, none, some (FVal.num (1/10000))⟩).1.heap)[0]?).map
      MarkerD.interval = some (1/10000) ∧
    (1/10000 : ℚ) ≠ 1/100 := by
  refine ⟨?_, by norm_num, ?_, by norm_num⟩
  · simp only [applyEdit]
    norm_num
  · exact applyDoc_interval_raw ⟨[], []⟩ 0 0 (1/10000)

/-- C6 (amended): the editor clamps a committed interval only from below
(stored value is `max(0.01, input)`, so `9.0` is stored as `9.0`); loading
a marker entry stores the raw input value unclamped (`0.0001` is stored as
`0.0001`); the `[0.01, 5.0]` clamp is applied to the sleep duration at
click time inside the runner's worker. -/
theorem c6_interval_clamp_amended (m : MarkerD) (q : ℚ) (p : ClkPage) (px py : Int) :
    (applyEdit m (EditVal.einterval q)).interval = max (1/100) q ∧
    TraceItem.sleep (max (1/100) (min 5 m.interval)) ∈ markerTrace m ∧
    (((applyDoc p px py ⟨none, none, none, some (FVal.num q)⟩).1.heap)[p.heap.length]?).map
      MarkerD.interval = some q := by
  refine ⟨?_, ?_, applyDoc_interval_raw p px py q⟩
  · simp only [applyEdit]
    rcases lt_or_le q (1/100) with hq | hq
    · rw [if_pos hq, max_eq_left hq.le]
    · rw [if_neg (not_lt.2 hq), max_eq_right hq]
  · simp [markerTrace]

/-! ## All-or-nothing loading (claim C10) -/

theorem parseAllEvents_none (docs : List EventDoc)
    (h : ∃ d ∈ docs, parseEvent d = none) : parseAllEvents docs = none := by
  induction docs with
  | nil =>
    obtain ⟨d, hd, _⟩ := h
    exact absurd hd (List.not_mem_nil d)
  | cons d ds ih =>
    obtain ⟨e, he, hpe⟩ := h
    rw [List.mem_cons] at he
    cases he with
    | inl hh =>
      subst hh
      simp [parseAllEvents, hpe]
    | inr hh =>
      rw [parseAllEvents, ih ⟨e, hh, hpe⟩]
      cases parseEvent d <;> rfl

/-- C10 (amended): loading a persisted recording is all-or-nothing — if
any event entry fails to parse, the prior recording is untouched and the
load reports failure — but loading a persisted clicker configuration is
not: it clears the markers and applies the `loops`/`delay` parameters
before the marker entries parse, so a malformed marker entry leaves a
partially applied state (prior markers gone, parameters and a prefix of
the new markers applied). -/
theorem c10_load_amended :
    (∀ (st : List Event) (docs : List EventDoc),
      (∃ d ∈ docs, parseEvent d = none) → rec_load st docs = (st, false)) ∧
    (∀ (st : ClkState) (px py : Int) (dl : Int) (dd : ℚ) (docs : List MarkerDoc),
      (clk_load_config st px py dl dd docs).1.loops = dl ∧
      (clk_load_config st px py dl dd docs).1.delay = dd) := by
  constructor
  · intro st docs h
    rw [rec_load, parseAllEvents_none docs h]
  · intro st px py dl dd docs
    exact ⟨rfl, rfl⟩

/-- C10 witness: a recording load with one unparsable entry (missing `t`
and `type` keys) leaves the prior recording untouched, and a clicker load
applies its parameters. -/
theorem c10_load_witness :
    parseEvent {} = none ∧
    rec_load [{ t := 0, type := "mouse_move", x := 1, y := 2 }] [{}] =
      ([{ t := 0, type := "mouse_move", x := 1, y := 2 }], false) ∧
    (clk_load_config ⟨⟨[], []⟩, 1, 0⟩ 0 0 5 2 []).1.loops = 5 :=
  ⟨rfl, c10_load_amended.1 _ _ ⟨{}, by simp, rfl⟩,
   (c10_load_amended.2 ⟨⟨[], []⟩, 1, 0⟩ 0 0 5 2 []).1⟩

/-- C10 counterexample: loading a clicker document whose single marker
entry has an unconvertible `x` aborts the load — but only after the prior
marker list was cleared, the parameters were applied, and a fresh default
marker was appended — so the prior in-memory state is not left untouched
and a partially-applied state remains. -/
theorem c10_partial_load_counterexample :
    (clk_load_config ⟨⟨[⟨1, 5, 5, "left", 1⟩], [0]⟩, 3, 0⟩ 0 0 9 1
        [⟨some FVal.bad, none, none, none⟩]).2 = false ∧
    resolve (clk_load_config ⟨⟨[⟨1, 5, 5, "left", 1⟩], [0]⟩, 3, 0⟩ 0 0 9 1
        [⟨some FVal.bad, none, none, none⟩]).1.page ≠
      resolve (⟨[⟨1, 5, 5, "left", 1⟩], [0]⟩ : ClkPage) ∧
    (clk_load_config ⟨⟨[⟨1, 5, 5, "left", 1⟩], [0]⟩, 3, 0⟩ 0 0 9 1
        [⟨some FVal.bad, none, none, none⟩]).1.loops ≠ 3 := by
  refine ⟨rfl, ?_, by decide⟩
  intro h
  simp [clk_load_config, clear_markers, docsLoop, applyDoc, add_marker, refreshPage,
    renumber, setId, resolve] at h

end AutoClick
